import Mathlib

/-!
RF-Benchmark frame codec and transfer protocol: a verification development.

This file gives a shallow embedding of the `rf433lib` package, the core of
the RF-Benchmark repository: the frame codec (`rf433lib/protocol.py`), the
receiver session (`rf433lib/receiver.py`) and the transmitter session
(`rf433lib/transmitter.py`), and proves the spec-level properties about
them.

Conventions of the embedding:

* Python `bytes` values become `List Nat`, each element intended `< 256`.
* Python integers become `Nat` where the source guarantees non-negativity,
  and `Int` where a value originates from a parsed control message
  (`int(msg.get("run_id", -1))` can be `-1` or any JSON integer).
* Functions that can raise (`build_frame`, `struct.pack` range errors)
  return `Option`; `none` models the raised exception.
* `zlib.crc32` is modelled by the standard reflected CRC-32 bit-level
  recurrence (polynomial `0xEDB88320`, initial value and final xor
  `0xFFFFFFFF`), which is the function zlib computes.
* The serial transport is replaced by explicit scripts: a list or function
  giving the result of each successive read; `none` models a timeout.
-/

/-! ## CRC-32 (model of `zlib.crc32`) -/

/-- The reflected CRC-32 polynomial used by zlib. -/
def crcPoly : Nat := 0xEDB88320

/-- One shift step of the reflected CRC-32 register: shift right one bit
and fold in the polynomial when the dropped bit was set.  `c % 2` is the
low bit (`c & 1` in the C source of zlib). -/
def crcStep (c : Nat) : Nat :=
  c >>> 1 ^^^ (if c % 2 = 1 then crcPoly else 0)

/-- Eight register steps: one input byte's worth of shifting. -/
def crcStep8 (c : Nat) : Nat :=
  crcStep (crcStep (crcStep (crcStep (crcStep (crcStep (crcStep (crcStep c)))))))

/-- Feed a list of bytes through the CRC register: xor each byte into the
low bits, then shift eight times. -/
def crcUpdate : Nat → List Nat → Nat
  | c, [] => c
  | c, b :: bs => crcUpdate (crcStep8 (c ^^^ b)) bs

/-- CRC-32 of a byte string, as `zlib.crc32` returns it: register
initialised to `0xFFFFFFFF`, final value xored with `0xFFFFFFFF`. -/
def crc32 (s : List Nat) : Nat :=
  crcUpdate 0xFFFFFFFF s ^^^ 0xFFFFFFFF

/-! ## Byte packing (model of `struct.pack`/`unpack`, big-endian) -/

/-- Big-endian 2-byte encoding of a 16-bit value (`struct.pack(">H", x)`).
`build_frame` only applies it to values already checked `< 65536`. -/
def pack16 (x : Nat) : List Nat := [x / 256, x % 256]

/-- Big-endian 4-byte encoding of a 32-bit value (`struct.pack(">I", x)`),
with the `& 0xFFFFFFFF` masking the source applies to the CRC. -/
def pack32 (x : Nat) : List Nat :=
  [x / 2 ^ 24 % 256, x / 2 ^ 16 % 256, x / 2 ^ 8 % 256, x % 256]

/-- Big-endian 16-bit read at byte offset `i` (missing bytes read as 0;
`decode_frame` only reads offsets that exist). -/
def get16 (f : List Nat) (i : Nat) : Nat :=
  256 * f.getD i 0 + f.getD (i + 1) 0

/-- Big-endian 32-bit read at byte offset `i`. -/
def get32 (f : List Nat) (i : Nat) : Nat :=
  2 ^ 24 * f.getD i 0 + 2 ^ 16 * f.getD (i + 1) 0 +
    2 ^ 8 * f.getD (i + 2) 0 + f.getD (i + 3) 0

/-! ## Frame codec (`rf433lib/protocol.py`) -/

/-- The frame magic sentinel `0xA55A`. -/
def MAGIC : Nat := 0xA55A

/-- The local `frame_wo_crc` of `build_frame`: the 10-byte header followed
by the payload zero-padded to capacity `mtu - 14`. -/
def frame_wo_crc (runId seq total : Nat) (payload : List Nat) (mtu : Nat) : List Nat :=
  pack16 MAGIC ++ pack16 runId ++ pack16 seq ++ pack16 total ++ pack16 payload.length ++
    (payload ++ List.replicate (mtu - 14 - payload.length) 0)

/-- `protocol.build_frame`.  `none` models a raised exception: the
`ValueError` for `mtu - 14 <= 0`, the `ValueError` for an oversized chunk,
and the `struct.error` raised by `struct.pack(">HHHHH", ...)` when a field
does not fit 16 bits. -/
def build_frame (runId seq total : Nat) (payload : List Nat) (mtu : Nat) :
    Option (List Nat) :=
  if mtu - 14 = 0 then none
  else if mtu - 14 < payload.length then none
  else if 65536 ≤ runId ∨ 65536 ≤ seq ∨ 65536 ≤ total ∨ 65536 ≤ payload.length
    then none
  else
    some (frame_wo_crc runId seq total payload mtu ++
      pack32 (crc32 (frame_wo_crc runId seq total payload mtu)))

/-- The dictionary `protocol.decode_frame` returns: a bare `{"ok": False}`,
a CRC failure `{"ok": False, "seq": ..., "run_id": ...}`, or the success
dictionary with all decoded fields. -/
inductive DecodeResult where
  | fail : DecodeResult
  | failCrc (seq runId : Nat) : DecodeResult
  | ok (runId seq total payloadLen : Nat) (payload : List Nat) : DecodeResult
  deriving DecidableEq

/-- Truthiness of `decoded.get("ok")`. -/
def DecodeResult.isOk : DecodeResult → Bool
  | .ok _ _ _ _ _ => true
  | _ => false

/-- `protocol.decode_frame`.  The `struct.error` branch of the source is
unreachable: the first guard ensures `frame` has length `mtu ≥ 14 ≥ 10`,
so unpacking the 10-byte header always succeeds. -/
def decode_frame (frame : List Nat) (mtu : Nat) : DecodeResult :=
  if frame.length ≠ mtu ∨ mtu < 14 then .fail
  else
    let magic := get16 frame 0
    let runId := get16 frame 2
    let seq := get16 frame 4
    let total := get16 frame 6
    let payloadLen := get16 frame 8
    if magic ≠ MAGIC then .fail
    else
      let payload := (frame.drop 10).take (frame.length - 14)
      if payload.length < payloadLen then .fail
      else
        let expectedCrc := crc32 (frame.take (frame.length - 4))
        let actualCrc := get32 frame (frame.length - 4)
        if expectedCrc ≠ actualCrc then .failCrc seq runId
        else .ok runId seq total payloadLen (payload.take payloadLen)

/-! ## Chunking and reassembly -/

/-- The chunk split of `transmitter.send_bytes` (lines 32-40): capacity
`mtu - 14`, `ceil(len / capacity)` chunks, chunk `i` being the slice
`data[i*capacity : (i+1)*capacity]`. -/
def chunkify (data : List Nat) (mtu : Nat) : List (List Nat) :=
  let payloadCapacity := mtu - 14
  let totalChunks := (data.length + payloadCapacity - 1) / payloadCapacity
  (List.range totalChunks).map fun i =>
    (data.drop (i * payloadCapacity)).take payloadCapacity

/-- The reassembly the receiver performs on `END` (receiver.py lines
110-112): concatenate every slot (`chunk or b""` reads an empty slot as the
empty string) and, when the announced `total_size` is positive, trim to it. -/
def reassemble (slots : List (Option (List Nat))) (totalSize : Nat) : List Nat :=
  let payload := (slots.map fun c => c.getD []).flatten
  if 0 < totalSize then payload.take totalSize else payload

/-! ## Receiver session (`rf433lib/receiver.py`) -/

/-- The mutable per-session state of `receive_once`: the chunk-slot array
and the cumulative counters. -/
structure RxState where
  slots : List (Option (List Nat))
  crcFail : Nat
  timeouts : Nat
  deriving DecidableEq

/-- The burst-consuming loop of `receive_once` (lines 60-78).  `seqs` is
the announced index list (already `int()`-converted, hence `Int`); the
loop body never reads the element, only iterates once per announced index.
`reads` scripts the successive results of `read_exact`; `none` is a read
timeout, which increments `timeouts` and breaks out of the burst.  Returns
the final state, the burst's missing set, and the unconsumed reads. -/
def consumeBurst (runId mtu total : Nat) :
    List Int → List (Option (List Nat)) → Finset Int → RxState →
    RxState × Finset Int × List (Option (List Nat))
  | [], reads, missing, st => (st, missing, reads)
  | _ :: _, [], missing, st =>
      ({ st with timeouts := st.timeouts + 1 }, missing, [])
  | _ :: _, none :: reads, missing, st =>
      ({ st with timeouts := st.timeouts + 1 }, missing, reads)
  | _ :: rest, some raw :: reads, missing, st =>
      match decode_frame raw mtu with
      | .ok r s _ _ payload =>
          if r ≠ runId then consumeBurst runId mtu total rest reads missing st
          else if s < total then
            consumeBurst runId mtu total rest reads (missing.erase (s : Int))
              { st with slots := st.slots.set s (some payload) }
          else consumeBurst runId mtu total rest reads missing st
      | _ =>
          consumeBurst runId mtu total rest reads missing
            { st with crcFail := st.crcFail + 1 }

/-- A control message as the receiver's in-session loop sees it, after the
source's `int()` conversions.  `other` stands for any message whose type is
neither `BURST` nor `END` (the loop ignores it). -/
inductive RxMsg where
  | burst (runId : Int) (seqs : List Int)
  | endMsg (runId : Int)
  | other

/-- The result dictionary `receive_once` returns on `END` (the free-form
`metadata` and the float `loss` are omitted: no claim mentions them). -/
structure RxResult where
  success : Bool
  runId : Nat
  data : List Nat
  chunksReceived : Nat
  chunksExpected : Nat
  crcFail : Nat
  timeouts : Nat

/-- The in-session `while True` loop of `receive_once` (lines 47-127).
`msgs` scripts the successive results of `recv_msg` (`none` is a recv
timeout, on which the source does `continue`); `frames` scripts
`read_exact`.  When the script is exhausted without an `END` for the
session's `run_id`, the loop is still running: that is the `none` result —
the source has no other way out of the loop. -/
def rxLoop (runId mtu total totalSize : Nat) :
    List (Option RxMsg) → List (Option (List Nat)) → RxState → Option RxResult
  | [], _, _ => none
  | none :: msgs, frames, st => rxLoop runId mtu total totalSize msgs frames st
  | some .other :: msgs, frames, st => rxLoop runId mtu total totalSize msgs frames st
  | some (.burst r seqs) :: msgs, frames, st =>
      if r ≠ (runId : Int) then rxLoop runId mtu total totalSize msgs frames st
      else
        let out := consumeBurst runId mtu total seqs frames seqs.toFinset st
        rxLoop runId mtu total totalSize msgs out.2.2 out.1
  | some (.endMsg r) :: msgs, frames, st =>
      if r ≠ (runId : Int) then rxLoop runId mtu total totalSize msgs frames st
      else
        let received := st.slots.countP fun c => c.isSome
        some { success := received == total
               runId := runId
               data := reassemble st.slots totalSize
               chunksReceived := received
               chunksExpected := total
               crcFail := st.crcFail
               timeouts := st.timeouts }

/-! ## Transmitter session (`rf433lib/transmitter.py`) -/

/-- A control message as the transmitter sees it.  Fields other than the
type are `Option`s because the source reads them with `dict.get` and a
default (`int(msg.get("run_id", -1))` and so on). -/
structure CtrlMsg where
  mtype : String
  runId : Option Int := none
  missing : Option (List Int) := none
  crcFail : Option Int := none
  timeouts : Option Int := none
  received : Option Int := none

/-- The handshake test of `send_bytes` line 65: the reply exists, has type
`SYNC_ACK`, and carries the session's `run_id`. -/
def ackMatches (reply : Option CtrlMsg) (runId : Nat) : Bool :=
  match reply with
  | none => false
  | some m => m.mtype == "SYNC_ACK" && m.runId.getD (-1) == (runId : Int)

/-- One round of the transfer loop of `send_bytes` (lines 80-118), from
the burst selection to the `pending` update: computes this round's `seqs`
(the window-limited sorted pending indices), and, when `reply` is a
genuine `REPORT` for this `run_id`, refreshes the counters from it and
discards from `pending` every announced index the report does not list as
missing.  Returns `(seqs, pending', crc_fail', timeouts')`. -/
def txRound (runId windowSize : Nat) (pending : Finset Nat)
    (crcFail timeouts : Int) (reply : Option CtrlMsg) :
    List Nat × Finset Nat × Int × Int :=
  let seqs := (pending.sort (· ≤ ·)).take windowSize
  match reply with
  | none => (seqs, pending, crcFail, timeouts)
  | some m =>
      if m.mtype ≠ "REPORT" then (seqs, pending, crcFail, timeouts)
      else if m.runId.getD (-1) ≠ (runId : Int) then (seqs, pending, crcFail, timeouts)
      else
        let missing := m.missing.getD []
        let pending' :=
          seqs.foldl (fun p (s : Nat) => if (s : Int) ∈ missing then p else p.erase s)
            pending
        (seqs, pending', m.crcFail.getD crcFail, m.timeouts.getD timeouts)

/-- One item written to the serial port by the transmitter: a control
message (`send_msg`) or a raw data frame (`ser.write(frame)`). -/
inductive TxWrite where
  | sync (runId mtu count totalSize window : Nat)
  | burst (runId : Nat) (seqs : List Nat)
  | frame (bytes : List Nat)
  | endMsg (runId : Nat)
  deriving DecidableEq

/-- The result dictionary of `send_bytes`: either the early
`{"success": False, "reason": "sync_failed", ...}` return of line 66, or
the full final dictionary (wall-clock `duration_s`, `effective_bps` and the
float `loss_percent` omitted: not modelable, no claim needs them). -/
inductive TxResult where
  | syncFailed (runId bytesTotal chunksTotal : Nat)
  | finished (success : Bool) (runId bytesTotal chunksTotal : Nat)
      (received crcFail timeouts : Int) (rounds : Nat) (aborted : Bool)
  deriving DecidableEq

/-- The `success` field of the result dictionary. -/
def TxResult.success : TxResult → Bool
  | .syncFailed _ _ _ => false
  | .finished s _ _ _ _ _ _ _ _ => s

/-- The `reason` field of the result dictionary (only the sync-failure
return carries one). -/
def TxResult.reason : TxResult → Option String
  | .syncFailed _ _ _ => some "sync_failed"
  | _ => none

/-- The transfer loop of `send_bytes` (lines 80-118), `fuel` counting the
remaining allowed rounds (`max_rounds - rounds`).  `script k` is the
result of the `k`-th `recv_msg` call of the whole session.  `none` models
the exception `build_frame` would raise mid-burst (unreachable for the
arguments `send_bytes` passes when its fields fit 16 bits).  Returns the
final `pending`, counters, round count, accumulated writes, and next
script index. -/
def txLoop (runId windowSize mtu totalChunks : Nat) (chunks : List (List Nat))
    (script : Nat → Option CtrlMsg) :
    Nat → Finset Nat → Int → Int → Nat → List TxWrite → Nat →
    Option (Finset Nat × Int × Int × Nat × List TxWrite × Nat)
  | 0, pending, crcFail, timeouts, rounds, writes, k =>
      some (pending, crcFail, timeouts, rounds, writes, k)
  | fuel + 1, pending, crcFail, timeouts, rounds, writes, k =>
      if pending = ∅ then some (pending, crcFail, timeouts, rounds, writes, k)
      else
        let round := txRound runId windowSize pending crcFail timeouts (script k)
        match round.1.mapM
            (fun s => build_frame runId s totalChunks (chunks.getD s []) mtu) with
        | none => none
        | some frames =>
            txLoop runId windowSize mtu totalChunks chunks script fuel
              round.2.1 round.2.2.1 round.2.2.2 (rounds + 1)
              (writes ++ TxWrite.burst runId round.1 :: frames.map TxWrite.frame)
              (k + 1)

/-- `transmitter.send_bytes`.  The session `run_id` (random in the source)
and the reply script are parameters; the returned pair is the result
dictionary together with everything written to the port, in order.  `none`
models a raised exception (the `ValueError` for `mtu - 14 <= 0`, or a
frame-build error inside the loop). -/
def send_bytes (windowSize maxRounds runId : Nat) (data : List Nat) (mtu : Nat)
    (script : Nat → Option CtrlMsg) : Option (TxResult × List TxWrite) :=
  let payloadCapacity := mtu - 14
  if payloadCapacity = 0 then none
  else
    let totalChunks := (data.length + payloadCapacity - 1) / payloadCapacity
    let chunks := chunkify data mtu
    let syncWrite := TxWrite.sync runId mtu totalChunks data.length windowSize
    if ¬ ackMatches (script 0) runId then
      some (TxResult.syncFailed runId data.length totalChunks, [syncWrite])
    else
      match txLoop runId windowSize mtu totalChunks chunks script maxRounds
          (Finset.range totalChunks) 0 0 0 [syncWrite] 1 with
      | none => none
      | some (pending, crcFail, timeouts, rounds, writes, k) =>
          let writes' := writes ++ [TxWrite.endMsg runId]
          let base : Int := (totalChunks : Int) - pending.card
          match script k with
          | some m =>
              if m.mtype == "FINAL" && m.runId.getD (-1) == (runId : Int) then
                some (TxResult.finished (decide (pending = ∅)) runId data.length
                  totalChunks (m.received.getD base) (m.crcFail.getD crcFail)
                  (m.timeouts.getD timeouts) rounds (! decide (pending = ∅)), writes')
              else
                some (TxResult.finished (decide (pending = ∅)) runId data.length
                  totalChunks base crcFail timeouts rounds
                  (! decide (pending = ∅)), writes')
          | none =>
              some (TxResult.finished (decide (pending = ∅)) runId data.length
                totalChunks base crcFail timeouts rounds
                (! decide (pending = ∅)), writes')

/-! ## Xor algebra helpers -/

/-- Right shift distributes over xor. -/
theorem shiftRight_one_xor (a b : Nat) : (a ^^^ b) >>> 1 = a >>> 1 ^^^ b >>> 1 := by
  apply Nat.eq_of_testBit_eq
  intro k
  simp [Nat.testBit_shiftRight, Nat.testBit_xor]

/-- Rebracketing a xor of four terms. -/
theorem xor_mix (a b c d : Nat) : (a ^^^ b) ^^^ (c ^^^ d) = (a ^^^ c) ^^^ (b ^^^ d) := by
  apply Nat.eq_of_testBit_eq
  intro k
  simp only [Nat.testBit_xor]
  cases a.testBit k <;> cases b.testBit k <;> cases c.testBit k <;> cases d.testBit k <;> rfl

/-- A common xor term on both sides cancels. -/
theorem xor_cancel_right (x y p : Nat) : (x ^^^ p) ^^^ (y ^^^ p) = x ^^^ y := by
  rw [xor_mix, Nat.xor_self, Nat.xor_zero]

/-- Xoring a value in and the base back out leaves the value. -/
theorem xor_cancel_base (a v : Nat) : (a ^^^ v) ^^^ a = v := by
  rw [Nat.xor_comm a v, Nat.xor_assoc, Nat.xor_self, Nat.xor_zero]

/-! ## CRC-32 is GF(2)-linear and never maps a single-bit error to zero -/

/-- The register step is linear over xor. -/
theorem crcStep_xor (a b : Nat) : crcStep (a ^^^ b) = crcStep a ^^^ crcStep b := by
  unfold crcStep
  rw [shiftRight_one_xor]
  rcases Nat.mod_two_eq_zero_or_one a with ha | ha <;>
    rcases Nat.mod_two_eq_zero_or_one b with hb | hb <;>
      rw [show (a ^^^ b) % 2 = (a + b) % 2 from Nat.xor_mod_two_eq] <;>
        simp [Nat.add_mod, ha, hb] <;>
          (apply Nat.eq_of_testBit_eq; intro k;
            simp only [Nat.testBit_xor];
            cases (a >>> 1).testBit k <;> cases (b >>> 1).testBit k <;>
              cases crcPoly.testBit k <;> rfl)

/-- Eight register steps are linear over xor. -/
theorem crcStep8_xor (a b : Nat) : crcStep8 (a ^^^ b) = crcStep8 a ^^^ crcStep8 b := by
  simp [crcStep8, crcStep_xor]

/-- The whole register run is linear over xor, bytewise. -/
theorem crcUpdate_xor :
    ∀ (s t : List Nat) (c d : Nat), s.length = t.length →
      crcUpdate (c ^^^ d) (List.zipWith (· ^^^ ·) s t) = crcUpdate c s ^^^ crcUpdate d t := by
  intro s
  induction s with
  | nil =>
      intro t c d h
      rw [List.length_nil] at h
      cases t with
      | nil => simp [crcUpdate]
      | cons b t => simp at h
  | cons a s ih =>
      intro t c d h
      cases t with
      | nil => simp at h
      | cons b t =>
          simp only [List.zipWith_cons_cons, crcUpdate]
          rw [xor_mix, crcStep8_xor]
          exact ih t _ _ (by simpa using h)

/-- Two equal-length byte strings have equal CRC iff the zero-initialised
register run over their bytewise xor lands on zero. -/
theorem crcUpdate_zipWith_xor (s t : List Nat) (h : s.length = t.length) :
    crcUpdate 0 (List.zipWith (· ^^^ ·) s t) = crc32 s ^^^ crc32 t := by
  have hf : (0xFFFFFFFF : Nat) ^^^ 0xFFFFFFFF = 0 := by decide
  rw [crc32, crc32, xor_cancel_right, ← hf, crcUpdate_xor s t _ _ h]

/-- One register step maps a nonzero 32-bit state to a nonzero 32-bit
state: the step is injective, because the polynomial's top bit records
whether it was folded in. -/
theorem crcStep_ne_zero (c : Nat) (h0 : c ≠ 0) (hlt : c < 2 ^ 32) :
    crcStep c ≠ 0 ∧ crcStep c < 2 ^ 32 := by
  have hbound : crcStep c < 2 ^ 32 := by
    unfold crcStep
    apply Nat.xor_lt_two_pow
    · have : c >>> 1 = c / 2 := Nat.shiftRight_one c
      omega
    · split <;> decide
  refine ⟨?_, hbound⟩
  rcases Nat.mod_two_eq_zero_or_one c with hc | hc
  · unfold crcStep
    rw [hc]
    simp only [Nat.shiftRight_one]
    intro h
    rw [if_neg (by omega)] at h
    rw [Nat.xor_zero] at h
    omega
  · intro h
    have htb : (crcStep c).testBit 31 = true := by
      unfold crcStep
      rw [if_pos hc, Nat.testBit_xor, Nat.testBit_shiftRight]
      rw [Nat.testBit_lt_two_pow (show c < 2 ^ (1 + 31) by omega)]
      decide
    rw [h] at htb
    simp [Nat.zero_testBit] at htb

/-- Eight register steps preserve nonzero 32-bit states. -/
theorem crcStep8_ne_zero (c : Nat) (h0 : c ≠ 0) (hlt : c < 2 ^ 32) :
    crcStep8 c ≠ 0 ∧ crcStep8 c < 2 ^ 32 := by
  unfold crcStep8
  have h1 := crcStep_ne_zero c h0 hlt
  have h2 := crcStep_ne_zero _ h1.1 h1.2
  have h3 := crcStep_ne_zero _ h2.1 h2.2
  have h4 := crcStep_ne_zero _ h3.1 h3.2
  have h5 := crcStep_ne_zero _ h4.1 h4.2
  have h6 := crcStep_ne_zero _ h5.1 h5.2
  have h7 := crcStep_ne_zero _ h6.1 h6.2
  exact crcStep_ne_zero _ h7.1 h7.2

/-- A nonzero 32-bit state stays nonzero while zero bytes stream in. -/
theorem crcUpdate_zeros_ne_zero :
    ∀ (n : Nat) (c : Nat), c ≠ 0 → c < 2 ^ 32 →
      crcUpdate c (List.replicate n 0) ≠ 0 := by
  intro n
  induction n with
  | zero => intro c h0 _; simpa [crcUpdate] using h0
  | succ n ih =>
      intro c h0 hlt
      rw [List.replicate_succ]
      simp only [crcUpdate, Nat.xor_zero]
      exact ih _ (crcStep8_ne_zero c h0 hlt).1 (crcStep8_ne_zero c h0 hlt).2

/-- Zero bytes leave a zero register untouched. -/
theorem crcUpdate_zero_replicate (p : Nat) (l : List Nat) :
    crcUpdate 0 (List.replicate p 0 ++ l) = crcUpdate 0 l := by
  induction p with
  | zero => simp
  | succ p ih =>
      rw [List.replicate_succ, List.cons_append]
      simpa only [crcUpdate, Nat.xor_zero, show crcStep8 0 = 0 from by decide] using ih

/-- The zero-initialised register run over a single-bit error vector is
never zero: CRC-32 detects every single-bit error. -/
theorem crcUpdate_single_bit_ne_zero (p q j : Nat) (hj : j < 8) :
    crcUpdate 0 (List.replicate p 0 ++ 2 ^ j :: List.replicate q 0) ≠ 0 := by
  rw [crcUpdate_zero_replicate]
  simp only [crcUpdate, Nat.zero_xor]
  have hne : (2 : Nat) ^ j ≠ 0 := pow_ne_zero j (by omega)
  have hlt : (2 : Nat) ^ j < 2 ^ 32 :=
    calc (2 : Nat) ^ j ≤ 2 ^ 7 := Nat.pow_le_pow_right (by omega) (by omega)
    _ < 2 ^ 32 := by norm_num
  exact crcUpdate_zeros_ne_zero q _ (crcStep8_ne_zero _ hne hlt).1 (crcStep8_ne_zero _ hne hlt).2

/-- A byte string xored with itself is all zero. -/
theorem zipWith_xor_self (s : List Nat) :
    List.zipWith (· ^^^ ·) s s = List.replicate s.length 0 := by
  induction s with
  | nil => rfl
  | cons a s ih => simp [List.replicate_succ, ih]

/-- Flipping bits `v` of byte `i` and xoring against the original leaves
exactly the single-error vector with `v` at position `i`. -/
theorem zipWith_xor_set (s : List Nat) :
    ∀ i : Nat, i < s.length → ∀ v : Nat,
      List.zipWith (· ^^^ ·) (s.set i (s.getD i 0 ^^^ v)) s =
        List.replicate i 0 ++ v :: List.replicate (s.length - i - 1) 0 := by
  induction s with
  | nil => intro i hi; simp at hi
  | cons a s ih =>
      intro i hi v
      cases i with
      | zero =>
          simp [xor_cancel_base, zipWith_xor_self]
      | succ i =>
          have hgd : (a :: s).getD (i + 1) 0 = s.getD i 0 := rfl
          simp only [List.set_cons_succ, hgd, List.zipWith_cons_cons, Nat.xor_self,
            List.replicate_succ, List.cons_append]
          rw [ih i (by simpa using hi) v]
          simp [List.length_cons, Nat.succ_sub_succ]

/-- One register step keeps the state below `2^32`. -/
theorem crcStep_lt (c : Nat) (h : c < 2 ^ 32) : crcStep c < 2 ^ 32 := by
  unfold crcStep
  apply Nat.xor_lt_two_pow
  · have : c >>> 1 = c / 2 := Nat.shiftRight_one c
    omega
  · split <;> decide

/-- Eight register steps keep the state below `2^32`. -/
theorem crcStep8_lt (c : Nat) (h : c < 2 ^ 32) : crcStep8 c < 2 ^ 32 := by
  unfold crcStep8
  exact crcStep_lt _ (crcStep_lt _ (crcStep_lt _ (crcStep_lt _ (crcStep_lt _
    (crcStep_lt _ (crcStep_lt _ (crcStep_lt _ h)))))))

/-- The register stays below `2^32` on genuine byte input. -/
theorem crcUpdate_lt :
    ∀ (s : List Nat) (c : Nat), c < 2 ^ 32 → (∀ b ∈ s, b < 256) →
      crcUpdate c s < 2 ^ 32 := by
  intro s
  induction s with
  | nil => intro c hc _; simpa [crcUpdate] using hc
  | cons b s ih =>
      intro c hc hb
      simp only [crcUpdate]
      refine ih _ (crcStep8_lt _ (Nat.xor_lt_two_pow hc ?_)) fun x hx => hb x (by simp [hx])
      have : b < 256 := hb b (by simp)
      omega

/-- `zlib.crc32` of a byte string fits 32 bits. -/
theorem crc32_lt (s : List Nat) (hb : ∀ b ∈ s, b < 256) : crc32 s < 2 ^ 32 := by
  unfold crc32
  exact Nat.xor_lt_two_pow (crcUpdate_lt s _ (by norm_num) hb) (by norm_num)

/-- CRC-32 distinguishes a byte string from any single-bit flip of it. -/
theorem crc32_flip_ne (s : List Nat) (i j : Nat) (hi : i < s.length) (hj : j < 8) :
    crc32 (s.set i (s.getD i 0 ^^^ 2 ^ j)) ≠ crc32 s := by
  intro h
  have hz := crcUpdate_zipWith_xor (s.set i (s.getD i 0 ^^^ 2 ^ j)) s (by simp)
  rw [h, Nat.xor_self] at hz
  rw [zipWith_xor_set s i hi (2 ^ j)] at hz
  exact crcUpdate_single_bit_ne_zero i (s.length - i - 1) j hj hz

/-! ## Structure of built frames -/

/-- The header-plus-padded-payload list, byte by byte. -/
theorem frame_wo_crc_cons (runId seq total : Nat) (payload : List Nat) (mtu : Nat) :
    frame_wo_crc runId seq total payload mtu =
      165 :: 90 :: (runId / 256) :: (runId % 256) :: (seq / 256) :: (seq % 256) ::
        (total / 256) :: (total % 256) ::
        (payload.length / 256) :: (payload.length % 256) ::
        (payload ++ List.replicate (mtu - 14 - payload.length) 0) := rfl

/-- A frame body has `mtu - 4` bytes when the chunk fits the capacity. -/
theorem frame_wo_crc_length (runId seq total : Nat) (payload : List Nat) (mtu : Nat)
    (h14 : 14 ≤ mtu) (hp : payload.length ≤ mtu - 14) :
    (frame_wo_crc runId seq total payload mtu).length = mtu - 4 := by
  simp [frame_wo_crc, pack16]
  omega

/-- All bytes of a frame body are bytes, given in-range fields and a
genuine byte payload. -/
theorem frame_wo_crc_bytes_lt (runId seq total : Nat) (payload : List Nat) (mtu : Nat)
    (hr : runId < 65536) (hs : seq < 65536) (ht : total < 65536)
    (hl : payload.length < 65536) (hp : ∀ b ∈ payload, b < 256) :
    ∀ b ∈ frame_wo_crc runId seq total payload mtu, b < 256 := by
  intro b hb
  rw [frame_wo_crc_cons] at hb
  simp only [List.mem_cons, List.mem_append, List.mem_replicate] at hb
  rcases hb with rfl | rfl | rfl | rfl | rfl | rfl | rfl | rfl | rfl | rfl | hb | hb
  · omega
  · omega
  · omega
  · omega
  · omega
  · omega
  · omega
  · omega
  · omega
  · omega
  · exact hp b hb
  · omega

/-- `build_frame` succeeds exactly with the guarded checks passed, and the
frame is the body followed by its packed CRC. -/
theorem build_frame_some (runId seq total : Nat) (payload : List Nat) (mtu : Nat)
    (frame : List Nat) (h : build_frame runId seq total payload mtu = some frame) :
    15 ≤ mtu ∧ payload.length ≤ mtu - 14 ∧ runId < 65536 ∧ seq < 65536 ∧
      total < 65536 ∧ payload.length < 65536 ∧
      frame = frame_wo_crc runId seq total payload mtu ++
        pack32 (crc32 (frame_wo_crc runId seq total payload mtu)) := by
  unfold build_frame at h
  split_ifs at h with h1 h2 h3
  push_neg at h3
  exact ⟨by omega, by omega, by omega, by omega, by omega, by omega,
    (Option.some_inj.mp h).symm⟩

/-- Reading 16 bits inside the left part of an append. -/
theorem get16_append_left (l r : List Nat) (i : Nat) (h : i + 1 < l.length) :
    get16 (l ++ r) i = get16 l i := by
  unfold get16
  rw [List.getD_append l r 0 i (by omega), List.getD_append l r 0 (i + 1) h]

/-- Reading past the left part of an append lands in the right part. -/
theorem getD_append_add (l r : List Nat) (i : Nat) :
    (l ++ r).getD (l.length + i) 0 = r.getD i 0 := by
  rw [List.getD_append_right l r 0 _ (Nat.le_add_right _ _)]
  simp

/-- Reading 32 bits right at the append boundary. -/
theorem get32_append (l r : List Nat) : get32 (l ++ r) l.length = get32 r 0 := by
  have h0 := getD_append_add l r 0
  have h1 := getD_append_add l r 1
  have h2 := getD_append_add l r 2
  have h3 := getD_append_add l r 3
  rw [Nat.add_zero] at h0
  unfold get32
  rw [h0, h1, h2, h3]

/-- Reading the magic field back out of a frame body. -/
theorem get16_frame_wo_crc_zero (runId seq total : Nat) (payload : List Nat)
    (mtu : Nat) : get16 (frame_wo_crc runId seq total payload mtu) 0 = MAGIC := by
  rw [frame_wo_crc_cons]
  rfl

/-- Reading the `run_id` field back. -/
theorem get16_frame_wo_crc_two (runId seq total : Nat) (payload : List Nat)
    (mtu : Nat) : get16 (frame_wo_crc runId seq total payload mtu) 2 = runId := by
  rw [frame_wo_crc_cons]
  show 256 * (runId / 256) + runId % 256 = runId
  omega

/-- Reading the `seq` field back. -/
theorem get16_frame_wo_crc_four (runId seq total : Nat) (payload : List Nat)
    (mtu : Nat) : get16 (frame_wo_crc runId seq total payload mtu) 4 = seq := by
  rw [frame_wo_crc_cons]
  show 256 * (seq / 256) + seq % 256 = seq
  omega

/-- Reading the `total` field back. -/
theorem get16_frame_wo_crc_six (runId seq total : Nat) (payload : List Nat)
    (mtu : Nat) : get16 (frame_wo_crc runId seq total payload mtu) 6 = total := by
  rw [frame_wo_crc_cons]
  show 256 * (total / 256) + total % 256 = total
  omega

/-- Reading the `payload_len` field back. -/
theorem get16_frame_wo_crc_eight (runId seq total : Nat) (payload : List Nat)
    (mtu : Nat) :
    get16 (frame_wo_crc runId seq total payload mtu) 8 = payload.length := by
  rw [frame_wo_crc_cons]
  show 256 * (payload.length / 256) + payload.length % 256 = payload.length
  omega

/-- Unpacking a packed 32-bit value gives it back. -/
theorem get32_pack32 (c : Nat) (h : c < 2 ^ 32) : get32 (pack32 c) 0 = c := by
  have e : get32 (pack32 c) 0 =
      2 ^ 24 * (c / 2 ^ 24 % 256) + 2 ^ 16 * (c / 2 ^ 16 % 256) +
        2 ^ 8 * (c / 2 ^ 8 % 256) + c % 256 := rfl
  rw [e]
  have e24 : (2 : Nat) ^ 24 = 16777216 := rfl
  have e16 : (2 : Nat) ^ 16 = 65536 := rfl
  have e8 : (2 : Nat) ^ 8 = 256 := rfl
  have e32 : (2 : Nat) ^ 32 = 4294967296 := rfl
  rw [e24, e16, e8] at *
  omega

/-- Key facts about a completed-build frame that `decode_frame` consults. -/
theorem built_frame_parts (runId seq total : Nat) (payload : List Nat) (mtu : Nat)
    (hp : ∀ b ∈ payload, b < 256) (h15 : 15 ≤ mtu)
    (hcap : payload.length ≤ mtu - 14) (hr : runId < 65536) (hs : seq < 65536)
    (ht : total < 65536) (hl : payload.length < 65536) :
    let body := frame_wo_crc runId seq total payload mtu
    let fr := body ++ pack32 (crc32 body)
    fr.length = mtu ∧
      get16 fr 0 = MAGIC ∧ get16 fr 2 = runId ∧ get16 fr 4 = seq ∧
      get16 fr 6 = total ∧ get16 fr 8 = payload.length ∧
      (fr.drop 10).take (mtu - 14) =
        payload ++ List.replicate (mtu - 14 - payload.length) 0 ∧
      fr.take (mtu - 4) = body ∧
      get32 fr (mtu - 4) = crc32 body := by
  intro body fr
  have hflen : body.length = mtu - 4 :=
    frame_wo_crc_length runId seq total payload mtu (by omega) hcap
  have hbytes : ∀ b ∈ body, b < 256 :=
    frame_wo_crc_bytes_lt runId seq total payload mtu hr hs ht hl hp
  have hlen : fr.length = mtu := by
    show (body ++ pack32 (crc32 body)).length = mtu
    rw [List.length_append, hflen]
    show mtu - 4 + 4 = mtu
    omega
  refine ⟨hlen, ?_, ?_, ?_, ?_, ?_, ?_, ?_, ?_⟩
  · rw [get16_append_left _ _ 0 (by omega), get16_frame_wo_crc_zero]
  · rw [get16_append_left _ _ 2 (by omega), get16_frame_wo_crc_two]
  · rw [get16_append_left _ _ 4 (by omega), get16_frame_wo_crc_four]
  · rw [get16_append_left _ _ 6 (by omega), get16_frame_wo_crc_six]
  · rw [get16_append_left _ _ 8 (by omega), get16_frame_wo_crc_eight]
  · have hdrop : fr.drop 10 =
        (payload ++ List.replicate (mtu - 14 - payload.length) 0) ++
          pack32 (crc32 body) := by
      show (body ++ pack32 (crc32 body)).drop 10 = _
      rw [show body = frame_wo_crc runId seq total payload mtu from rfl,
        frame_wo_crc_cons]
      rfl
    rw [hdrop]
    exact List.take_left' (by simp; omega)
  · exact List.take_left' hflen
  · rw [← hflen, get32_append]
    exact get32_pack32 _ (crc32_lt body hbytes)

/-! ## Claim theorems: frame codec -/

/-- C1: for every `run_id`, `seq`, `total` fitting 16 bits, every `mtu` on
which `build_frame` succeeds and every byte chunk of length at most
`mtu - 14`, decoding the built frame succeeds and returns exactly the
original `run_id`, `seq`, `total`, `payload_len = payload.length` and
payload bytes (encode/decode inverse law; the 16-bit and capacity bounds
are forced by `build_frame` succeeding). -/
theorem decode_after_build (runId seq total : Nat) (payload : List Nat) (mtu : Nat)
    (frame : List Nat) (hp : ∀ b ∈ payload, b < 256)
    (hb : build_frame runId seq total payload mtu = some frame) :
    decode_frame frame mtu = DecodeResult.ok runId seq total payload.length payload := by
  obtain ⟨h15, hcap, hr, hs, ht, hl, rfl⟩ := build_frame_some _ _ _ _ _ _ hb
  obtain ⟨hlen, g0, g2, g4, g6, g8, hslice, htake, hget⟩ :=
    built_frame_parts runId seq total payload mtu hp h15 hcap hr hs ht hl
  simp only [decode_frame, hlen, g0, g2, g4, g6, g8]
  rw [if_neg (by omega)]
  rw [if_neg (by simp)]
  rw [hslice]
  rw [if_neg (by simp only [List.length_append, List.length_replicate]; omega)]
  rw [htake, hget]
  rw [if_neg (by simp)]
  rw [List.take_left]

set_option maxRecDepth 8000 in
/-- Witness for C1 at a concrete frame: `run_id 1`, `seq 0`, `total 1`,
payload `"A"`, MTU 15. -/
theorem decode_after_build_witness :
    decode_frame ((build_frame 1 0 1 [65] 15).getD []) 15 =
      DecodeResult.ok 1 0 1 1 [65] :=
  decode_after_build 1 0 1 [65] 15 ((build_frame 1 0 1 [65] 15).getD [])
    (by decide) (by decide)

/-- C5 counterexample: at `mtu = 14` with the empty chunk the claim's
hypotheses hold (`mtu ≥ 14` and the chunk fits the capacity), yet
`build_frame` fails, because the source rejects `mtu - 14 <= 0`. -/
theorem build_frame_mtu14_cex :
    14 ≤ 14 ∧ ([] : List Nat).length ≤ 14 - 14 ∧
      build_frame 1 0 1 [] 14 = none := by decide

/-- C5 (amended): `build_frame` fails exactly when `mtu < 15`, or the
chunk exceeds the capacity `mtu - 14`, or a 16-bit field (`run_id`,
`seq`, `total`, or the chunk length) is out of range; on success the frame
has exactly `mtu` bytes. -/
theorem build_frame_spec (runId seq total : Nat) (payload : List Nat) (mtu : Nat) :
    (build_frame runId seq total payload mtu = none ↔
      mtu < 15 ∨ mtu - 14 < payload.length ∨ 65536 ≤ runId ∨ 65536 ≤ seq ∨
        65536 ≤ total ∨ 65536 ≤ payload.length) ∧
    ∀ frame, build_frame runId seq total payload mtu = some frame →
      frame.length = mtu := by
  constructor
  · unfold build_frame
    split_ifs with h1 h2 h3
    · exact iff_of_true rfl (by omega)
    · exact iff_of_true rfl (by omega)
    · exact iff_of_true rfl (by omega)
    · exact iff_of_false (by simp) (by omega)
  · intro frame h
    obtain ⟨h15, hcap, _, _, _, _, rfl⟩ := build_frame_some _ _ _ _ _ _ h
    rw [List.length_append, frame_wo_crc_length _ _ _ _ _ (by omega) hcap]
    show mtu - 4 + 4 = mtu
    omega

set_option maxRecDepth 8000 in
/-- Witness for C5 (amended) at `mtu = 15`, payload `"A"`. -/
theorem build_frame_spec_witness :
    ((build_frame 1 0 1 [65] 15).getD []).length = 15 :=
  (build_frame_spec 1 0 1 [65] 15).2 ((build_frame 1 0 1 [65] 15).getD [])
    (by decide)

/-- C3: `decode_frame` is total by construction and returns a non-success
result exactly when the input length differs from `mtu`, or the magic
sentinel is absent, or the declared `payload_len` exceeds the (integer)
capacity `mtu - 14`, or the trailing four bytes differ from the CRC-32 of
the rest; on success the returned payload is the stored payload slice
truncated to `payload_len`. -/
theorem decode_frame_spec (frame : List Nat) (mtu : Nat) :
    ((decode_frame frame mtu).isOk = false ↔
      frame.length ≠ mtu ∨ get16 frame 0 ≠ MAGIC ∨
        ((mtu : Int) - 14 < (get16 frame 8 : Int)) ∨
        crc32 (frame.take (frame.length - 4)) ≠ get32 frame (frame.length - 4)) ∧
    ∀ runId seq total payloadLen payload,
      decode_frame frame mtu = .ok runId seq total payloadLen payload →
      payload = ((frame.drop 10).take (frame.length - 14)).take payloadLen := by
  constructor
  · simp only [decode_frame]
    split_ifs with h1 h2 h3 h4
    · refine iff_of_true rfl ?_
      rcases h1 with h1 | h1
      · exact Or.inl h1
      · refine Or.inr (Or.inr (Or.inl ?_))
        omega
    · exact iff_of_true rfl (Or.inr (Or.inl h2))
    · refine iff_of_true rfl ?_
      push_neg at h1
      refine Or.inr (Or.inr (Or.inl ?_))
      simp only [List.length_take, List.length_drop] at h3
      omega
    · exact iff_of_true rfl (Or.inr (Or.inr (Or.inr h4)))
    · refine iff_of_false (by simp [DecodeResult.isOk]) ?_
      push_neg at h1
      rw [not_or, not_or, not_or]
      refine ⟨by simp [h1.1], h2, ?_, h4⟩
      simp only [List.length_take, List.length_drop, Nat.not_lt] at h3
      omega
  · intro runId seq total payloadLen payload h
    simp only [decode_frame] at h
    split_ifs at h
    injection h with e1 e2 e3 e4 e5
    rw [← e4, ← e5]

set_option maxRecDepth 8000 in
/-- Witness for C3: the success-side payload equation at a concrete
decodable frame. -/
theorem decode_frame_spec_witness :
    ([65] : List Nat) =
      ((((build_frame 1 0 1 [65] 15).getD []).drop 10).take
        (((build_frame 1 0 1 [65] 15).getD []).length - 14)).take 1 :=
  (decode_frame_spec ((build_frame 1 0 1 [65] 15).getD []) 15).2 1 0 1 1 [65]
    (by decide)

/-- A successful decode certifies the length and the checksum equation. -/
theorem decode_ok_crc (frame : List Nat) (mtu : Nat)
    (h : (decode_frame frame mtu).isOk = true) :
    frame.length = mtu ∧ 14 ≤ mtu ∧
      crc32 (frame.take (frame.length - 4)) = get32 frame (frame.length - 4) := by
  simp only [decode_frame] at h
  split_ifs at h with h1 h2 h3 h4
  · simp [DecodeResult.isOk] at h
  · simp [DecodeResult.isOk] at h
  · simp [DecodeResult.isOk] at h
  · simp [DecodeResult.isOk] at h
  · push_neg at h1 h4
    exact ⟨h1.1, by omega, h4⟩

/-- C8: flipping any single bit of any byte before the trailing four CRC
bytes of a built frame (that is, any header or payload bit) makes
`decode_frame` reject the frame: the flip is caught by the magic, length
or CRC check, and no single-bit corruption is ever accepted. -/
theorem decode_flip_fails (runId seq total : Nat) (payload : List Nat) (mtu : Nat)
    (frame : List Nat) (i j : Nat) (hp : ∀ b ∈ payload, b < 256)
    (hb : build_frame runId seq total payload mtu = some frame)
    (hi : i < mtu - 4) (hj : j < 8) :
    (decode_frame (frame.set i (frame.getD i 0 ^^^ 2 ^ j)) mtu).isOk = false := by
  obtain ⟨h15, hcap, hr, hs, ht, hl, rfl⟩ := build_frame_some _ _ _ _ _ _ hb
  have hflen : (frame_wo_crc runId seq total payload mtu).length = mtu - 4 :=
    frame_wo_crc_length runId seq total payload mtu (by omega) hcap
  have hbytes : ∀ b ∈ frame_wo_crc runId seq total payload mtu, b < 256 :=
    frame_wo_crc_bytes_lt runId seq total payload mtu hr hs ht hl hp
  have hib : i < (frame_wo_crc runId seq total payload mtu).length := by
    rw [hflen]
    omega
  have hset : (frame_wo_crc runId seq total payload mtu ++
        pack32 (crc32 (frame_wo_crc runId seq total payload mtu))).set i
        ((frame_wo_crc runId seq total payload mtu ++
          pack32 (crc32 (frame_wo_crc runId seq total payload mtu))).getD i 0 ^^^ 2 ^ j) =
      (frame_wo_crc runId seq total payload mtu).set i
        ((frame_wo_crc runId seq total payload mtu).getD i 0 ^^^ 2 ^ j) ++
        pack32 (crc32 (frame_wo_crc runId seq total payload mtu)) := by
    rw [List.getD_append _ _ _ _ hib, List.set_append]
    simp [hib]
  rw [hset]
  by_contra hok
  rw [Bool.not_eq_false] at hok
  obtain ⟨hlen2, _, hcrceq⟩ := decode_ok_crc _ _ hok
  have hsetlen : ((frame_wo_crc runId seq total payload mtu).set i
      ((frame_wo_crc runId seq total payload mtu).getD i 0 ^^^ 2 ^ j)).length = mtu - 4 := by
    rw [List.length_set, hflen]
  rw [hlen2] at hcrceq
  have htake : ((frame_wo_crc runId seq total payload mtu).set i
        ((frame_wo_crc runId seq total payload mtu).getD i 0 ^^^ 2 ^ j) ++
        pack32 (crc32 (frame_wo_crc runId seq total payload mtu))).take (mtu - 4) =
      (frame_wo_crc runId seq total payload mtu).set i
        ((frame_wo_crc runId seq total payload mtu).getD i 0 ^^^ 2 ^ j) :=
    List.take_left' hsetlen
  have hget : get32 ((frame_wo_crc runId seq total payload mtu).set i
        ((frame_wo_crc runId seq total payload mtu).getD i 0 ^^^ 2 ^ j) ++
        pack32 (crc32 (frame_wo_crc runId seq total payload mtu))) (mtu - 4) =
      crc32 (frame_wo_crc runId seq total payload mtu) := by
    rw [← hsetlen, get32_append]
    exact get32_pack32 _ (crc32_lt _ hbytes)
  rw [htake, hget] at hcrceq
  exact crc32_flip_ne (frame_wo_crc runId seq total payload mtu) i j hib hj hcrceq

set_option maxRecDepth 8000 in
/-- Witness for C8: flipping the lowest bit of byte 0 (the magic) of a
concrete built frame is rejected. -/
theorem decode_flip_fails_witness :
    (decode_frame (((build_frame 1 0 1 [65] 15).getD []).set 0
        (((build_frame 1 0 1 [65] 15).getD []).getD 0 0 ^^^ 2 ^ 0)) 15).isOk = false :=
  decode_flip_fails 1 0 1 [65] 15 ((build_frame 1 0 1 [65] 15).getD []) 0 0
    (by decide) (by decide) (by decide) (by decide)

/-! ## Claim theorems: chunking round trip -/

/-- Concatenating the `ceil`-split chunks of a list restores the list,
for any chunk count covering the whole length. -/
theorem flatten_range_chunks (cap : Nat) :
    ∀ (n : Nat) (data : List Nat), data.length ≤ n * cap →
      ((List.range n).map fun i => (data.drop (i * cap)).take cap).flatten = data := by
  intro n
  induction n with
  | zero =>
      intro data h
      rw [Nat.zero_mul, Nat.le_zero] at h
      rw [List.length_eq_zero] at h
      simp [h]
  | succ n ih =>
      intro data h
      rw [List.range_succ_eq_map]
      simp only [List.map_cons, List.map_map, List.flatten_cons, Nat.zero_mul,
        List.drop_zero]
      have hfun : ((List.range n).map fun i =>
          (data.drop ((i + 1) * cap)).take cap) =
          (List.range n).map fun i => ((data.drop cap).drop (i * cap)).take cap := by
        apply List.map_congr_left
        intro i _
        rw [List.drop_drop]
        congr 1
        rw [Nat.add_mul, Nat.one_mul, Nat.add_comm]
      have hcomp : (List.map ((fun i => (data.drop (i * cap)).take cap) ∘ fun i => i + 1)
          (List.range n)) = (List.range n).map fun i =>
            (data.drop ((i + 1) * cap)).take cap := rfl
      rw [Nat.succ_mul] at h
      rw [hcomp, hfun, ih (data.drop cap) (by simp only [List.length_drop]; omega)]
      exact List.take_append_drop cap data

/-- C2: for every payload and every `MTU ≥ 15`, splitting into
`ceil(L / (MTU - 14))` consecutive chunks as the transmitter does, storing
every chunk, then concatenating the slots in index order and trimming to
the declared total size `L` as the receiver does on `END`, reproduces the
original bytes exactly. -/
theorem chunk_roundtrip (data : List Nat) (mtu : Nat) (h : 15 ≤ mtu) :
    reassemble ((chunkify data mtu).map some) data.length = data := by
  have hcap : 0 < mtu - 14 := by omega
  have hflat : (chunkify data mtu).flatten = data := by
    unfold chunkify
    apply flatten_range_chunks
    have hq := Nat.div_add_mod (data.length + (mtu - 14) - 1) (mtu - 14)
    have hm := Nat.mod_lt (data.length + (mtu - 14) - 1) hcap
    have key : ∀ m r : Nat, m + r = data.length + (mtu - 14) - 1 → r < mtu - 14 →
        data.length ≤ m := by
      intro m r h1 h2
      omega
    rw [Nat.mul_comm]
    exact key _ _ hq hm
  unfold reassemble
  have hmaps : ((((chunkify data mtu).map some)).map fun c => c.getD []) =
      chunkify data mtu := by
    rw [List.map_map]
    have hid : ((fun c : Option (List Nat) => c.getD []) ∘ some) = id := rfl
    rw [hid, List.map_id]
  rw [hmaps, hflat]
  rcases Nat.eq_zero_or_pos data.length with h0 | hpos
  · rw [h0]
    simp
  · rw [if_pos hpos, List.take_length]

/-- Witness for C2 with a 5-byte payload and MTU 16 (capacity 2, three
chunks). -/
theorem chunk_roundtrip_witness :
    reassemble ((chunkify [1, 2, 3, 4, 5] 16).map some) 5 = [1, 2, 3, 4, 5] :=
  chunk_roundtrip [1, 2, 3, 4, 5] 16 (by decide)

/-! ## Claim theorems: receiver burst loop -/

/-- The number of `crc_fail` increments a burst run performs: one per
consumed frame that fails well-formedness, stopping at the first read
timeout (and at the end of the announced list). -/
def burstCrcDelta (mtu : Nat) : List Int → List (Option (List Nat)) → Nat
  | [], _ => 0
  | _ :: _, [] => 0
  | _ :: _, none :: _ => 0
  | _ :: rest, some raw :: reads =>
      (if (decode_frame raw mtu).isOk then 0 else 1) + burstCrcDelta mtu rest reads

/-- C4 (amended): along a burst, `crc_fail` grows by exactly the number of
consumed frames that fail well-formedness; a well-formed frame whose
`run_id` is foreign is discarded with no counter change and the loop
simply moves to the next announced index. -/
theorem consumeBurst_crcFail_spec :
    (∀ (runId mtu total : Nat) (seqs : List Int)
        (reads : List (Option (List Nat))) (missing : Finset Int) (st : RxState),
        ((consumeBurst runId mtu total seqs reads missing st).1).crcFail =
          st.crcFail + burstCrcDelta mtu seqs reads) ∧
    (∀ (runId mtu total : Nat) (s : Int) (rest : List Int) (raw : List Nat)
        (reads : List (Option (List Nat))) (missing : Finset Int) (st : RxState)
        (r sq t pl : Nat) (pay : List Nat),
        decode_frame raw mtu = .ok r sq t pl pay → r ≠ runId →
        consumeBurst runId mtu total (s :: rest) (some raw :: reads) missing st =
          consumeBurst runId mtu total rest reads missing st) := by
  constructor
  · intro runId mtu total seqs
    induction seqs with
    | nil => intro reads missing st; simp [consumeBurst, burstCrcDelta]
    | cons s rest ih =>
        intro reads missing st
        cases reads with
        | nil => simp [consumeBurst, burstCrcDelta]
        | cons rhead rtail =>
            cases rhead with
            | none => simp [consumeBurst, burstCrcDelta]
            | some raw =>
                simp only [consumeBurst, burstCrcDelta]
                cases hdec : decode_frame raw mtu with
                | fail => simp [DecodeResult.isOk, ih]; omega
                | failCrc sq r => simp [DecodeResult.isOk, ih]; omega
                | ok r sq t pl pay =>
                    dsimp only [DecodeResult.isOk]
                    rw [if_pos rfl]
                    split_ifs <;> simp [ih]
  · intro runId mtu total s rest raw reads missing st r sq t pl pay hdec hne
    simp only [consumeBurst, hdec]
    rw [if_pos hne]

set_option maxRecDepth 8000 in
/-- C4 counterexample: a well-formed frame carrying `run_id = 5` read in a
session with `run_id = 7` fails authenticity, yet the burst loop leaves
`crc_fail` at 0 — the claim predicts an increment to 1. -/
theorem consumeBurst_foreign_cex :
    decode_frame ((build_frame 5 0 1 [65] 15).getD []) 15 =
        DecodeResult.ok 5 0 1 1 [65] ∧
      ((consumeBurst 7 15 1 [0] [some ((build_frame 5 0 1 [65] 15).getD [])]
          {0} ⟨[none], 0, 0⟩).1).crcFail = 0 := by
  constructor
  · decide
  · decide

set_option maxRecDepth 8000 in
/-- Witness for C4 (amended): the foreign-frame step at a concrete frame
just skips to the rest of the burst. -/
theorem consumeBurst_crcFail_spec_witness :
    consumeBurst 7 15 1 [0] [some ((build_frame 5 0 1 [65] 15).getD [])] {0}
        ⟨[none], 0, 0⟩ =
      consumeBurst 7 15 1 [] [] {0} ⟨[none], 0, 0⟩ :=
  consumeBurst_crcFail_spec.2 7 15 1 0 [] ((build_frame 5 0 1 [65] 15).getD [])
    [] {0} ⟨[none], 0, 0⟩ 5 0 1 1 [65] (by decide) (by decide)

/-- C10: the chunk-slot array never changes length (it always keeps
`total_chunks` entries, so every filled slot index is in range), and a
well-formed authentic frame whose `seq` falls outside `[0, total)` is
ignored outright: nothing stored, no counter touched, the missing set
unchanged, the loop continuing. -/
theorem consumeBurst_slots_spec :
    (∀ (runId mtu total : Nat) (seqs : List Int)
        (reads : List (Option (List Nat))) (missing : Finset Int) (st : RxState),
        ((consumeBurst runId mtu total seqs reads missing st).1).slots.length =
          st.slots.length) ∧
    (∀ (runId mtu total : Nat) (s : Int) (rest : List Int) (raw : List Nat)
        (reads : List (Option (List Nat))) (missing : Finset Int) (st : RxState)
        (r sq t pl : Nat) (pay : List Nat),
        decode_frame raw mtu = .ok r sq t pl pay → r = runId → total ≤ sq →
        consumeBurst runId mtu total (s :: rest) (some raw :: reads) missing st =
          consumeBurst runId mtu total rest reads missing st) := by
  constructor
  · intro runId mtu total seqs
    induction seqs with
    | nil => intro reads missing st; simp [consumeBurst]
    | cons s rest ih =>
        intro reads missing st
        cases reads with
        | nil => simp [consumeBurst]
        | cons rhead rtail =>
            cases rhead with
            | none => simp [consumeBurst]
            | some raw =>
                simp only [consumeBurst]
                cases hdec : decode_frame raw mtu with
                | fail => simp [ih]
                | failCrc sq r => simp [ih]
                | ok r sq t pl pay =>
                    dsimp only
                    split_ifs <;> simp [ih, List.length_set]
  · intro runId mtu total s rest raw reads missing st r sq t pl pay hdec hreq hge
    simp only [consumeBurst, hdec]
    rw [if_neg (by simp [hreq]), if_neg (by omega)]

set_option maxRecDepth 8000 in
/-- Witness for C10: a concrete well-formed authentic frame announcing
`seq = 3` in a session with a single chunk slot is silently ignored. -/
theorem consumeBurst_slots_spec_witness :
    consumeBurst 7 15 1 [0] [some ((build_frame 7 3 1 [65] 15).getD [])] {0}
        ⟨[none], 0, 0⟩ =
      consumeBurst 7 15 1 [] [] {0} ⟨[none], 0, 0⟩ :=
  consumeBurst_slots_spec.2 7 15 1 0 [] ((build_frame 7 3 1 [65] 15).getD [])
    [] {0} ⟨[none], 0, 0⟩ 7 3 1 1 [65] (by decide) (by decide) (by decide)

/-! ## Claim theorems: receiver in-session wait -/

/-- C7 (amended): every single wait in the in-session loop is bounded
(each `recv_msg` call carries `sync_timeout`), but the loop itself has no
exit on timeout: when no further message arrives, the loop is still
running after any number of timed-out waits, so `receive_once` never
returns without an `END`. -/
theorem rxLoop_no_message_never_returns (runId mtu total totalSize : Nat)
    (n : Nat) (frames : List (Option (List Nat))) (st : RxState) :
    rxLoop runId mtu total totalSize (List.replicate n none) frames st = none := by
  induction n generalizing frames st with
  | zero => rfl
  | succ n ih =>
      rw [List.replicate_succ]
      simp only [rxLoop]
      exact ih frames st

/-- C7 counterexample: in the concrete session `run_id 7`, one expected
chunk, the claim's bound does not exist — no number of empty waits makes
`receive_once` return when no further message ever arrives. -/
theorem rxLoop_unbounded_wait_cex :
    ¬ ∃ n : Nat,
      (rxLoop 7 15 1 1 (List.replicate n none) [] ⟨[none], 0, 0⟩).isSome = true := by
  rintro ⟨n, hn⟩
  induction n with
  | zero => simp [rxLoop] at hn
  | succ n ih =>
      rw [List.replicate_succ] at hn
      simp only [rxLoop] at hn
      exact ih hn

/-! ## Claim theorems: transmitter rounds -/

/-- Every branch of `txRound` announces the same burst: the
window-limited sorted pending indices. -/
theorem txRound_seqs (runId windowSize : Nat) (pending : Finset Nat)
    (crcFail timeouts : Int) (reply : Option CtrlMsg) :
    (txRound runId windowSize pending crcFail timeouts reply).1 =
      (pending.sort (· ≤ ·)).take windowSize := by
  rcases reply with _ | m
  · rfl
  · simp only [txRound]
    split_ifs <;> rfl

/-- Membership after the report-driven `pending.discard` loop: an index
survives iff it was pending and is not an announced index the report
cleared. -/
theorem foldl_discard_mem (miss : List Int) :
    ∀ (l : List Nat) (p : Finset Nat) (x : Nat),
      x ∈ l.foldl (fun q (s : Nat) => if (s : Int) ∈ miss then q else q.erase s) p ↔
        x ∈ p ∧ ((x : Int) ∈ miss ∨ x ∉ l) := by
  intro l
  induction l with
  | nil => intro p x; simp
  | cons a l ih =>
      intro p x
      rw [List.foldl_cons]
      by_cases ha : (a : Int) ∈ miss
      · rw [if_pos ha, ih]
        by_cases hx : x = a
        · subst hx
          simp [ha]
        · simp [List.mem_cons, hx]
      · rw [if_neg ha, ih]
        by_cases hx : x = a
        · subst hx
          simp [Finset.mem_erase, List.mem_cons, ha]
        · simp [Finset.mem_erase, List.mem_cons, hx]

/-- Elements of a sorted list's prefix are below elements of its suffix. -/
theorem sorted_take_lt_drop (l : List Nat) (hl : l.Sorted (· < ·)) (n : Nat) :
    ∀ a ∈ l.take n, ∀ b ∈ l.drop n, a < b := by
  have hl' : (l.take n ++ l.drop n).Pairwise (· < ·) := by
    rw [List.take_append_drop]
    exact hl
  exact fun a ha b hb => (List.pairwise_append.mp hl').2.2 a ha b hb

/-- A reply passes the transmitter's report check iff it exists, has type
`REPORT` and carries the session `run_id`. -/
def reportMatches (reply : Option CtrlMsg) (runId : Nat) : Prop :=
  ∃ m, reply = some m ∧ m.mtype = "REPORT" ∧ m.runId.getD (-1) = (runId : Int)

/-- C6: each round's burst is the ascending list of the up-to-window
smallest pending indices; after a matching REPORT exactly the announced
indices the report does not list as missing leave `pending`; a missing or
mismatched reply leaves `pending`, `crc_fail` and `timeouts` unchanged,
and the next round re-announces exactly the same indices. -/
theorem txRound_spec (runId windowSize : Nat) (pending : Finset Nat)
    (crcFail timeouts : Int) (reply : Option CtrlMsg) :
    ((txRound runId windowSize pending crcFail timeouts reply).1.Sorted (· < ·) ∧
      (∀ s ∈ (txRound runId windowSize pending crcFail timeouts reply).1,
        s ∈ pending) ∧
      (txRound runId windowSize pending crcFail timeouts reply).1.length =
        min windowSize pending.card ∧
      ∀ s ∈ (txRound runId windowSize pending crcFail timeouts reply).1,
        ∀ t ∈ pending,
          t ∉ (txRound runId windowSize pending crcFail timeouts reply).1 → s < t) ∧
    (∀ m, reply = some m → m.mtype = "REPORT" →
      m.runId.getD (-1) = (runId : Int) → ∀ x : Nat,
        (x ∈ (txRound runId windowSize pending crcFail timeouts reply).2.1 ↔
          x ∈ pending ∧ ((x : Int) ∈ m.missing.getD [] ∨
            x ∉ (txRound runId windowSize pending crcFail timeouts reply).1))) ∧
    (¬ reportMatches reply runId →
      (txRound runId windowSize pending crcFail timeouts reply).2 =
          (pending, crcFail, timeouts) ∧
        ∀ reply2 : Option CtrlMsg,
          (txRound runId windowSize
            (txRound runId windowSize pending crcFail timeouts reply).2.1
            (txRound runId windowSize pending crcFail timeouts reply).2.2.1
            (txRound runId windowSize pending crcFail timeouts reply).2.2.2
            reply2).1 =
          (txRound runId windowSize pending crcFail timeouts reply).1) := by
  refine ⟨?_, ?_, ?_⟩
  · rw [txRound_seqs]
    have hsorted : (pending.sort (· ≤ ·)).Sorted (· < ·) :=
      Finset.sort_sorted_lt pending
    refine ⟨hsorted.sublist (List.take_sublist _ _), ?_, ?_, ?_⟩
    · intro s hs
      exact (Finset.mem_sort _).mp (List.mem_of_mem_take hs)
    · rw [List.length_take, Finset.length_sort]
    · intro s hs t ht hnt
      have htl : t ∈ (pending.sort (· ≤ ·)).drop windowSize := by
        have : t ∈ pending.sort (· ≤ ·) := (Finset.mem_sort _).mpr ht
        rw [← List.take_append_drop windowSize (pending.sort (· ≤ ·)),
          List.mem_append] at this
        exact this.resolve_left hnt
      exact sorted_take_lt_drop _ hsorted windowSize s hs t htl
  · intro m hm hty hrid x
    subst hm
    simp only [txRound_seqs]
    simp only [txRound]
    rw [if_neg (by simp [hty]), if_neg (by simp [hrid])]
    exact foldl_discard_mem (m.missing.getD []) _ pending x
  · intro hinv
    rcases hr : reply with _ | m
    · exact ⟨rfl, fun reply2 => by rw [txRound_seqs, txRound_seqs]; rfl⟩
    · subst hr
      have hm : m.mtype ≠ "REPORT" ∨ m.runId.getD (-1) ≠ (runId : Int) := by
        by_contra hc
        push_neg at hc
        exact hinv ⟨m, rfl, hc.1, hc.2⟩
      have h2 : (txRound runId windowSize pending crcFail timeouts (some m)).2 =
          (pending, crcFail, timeouts) := by
        simp only [txRound]
        rcases hm with hty | hrid
        · rw [if_pos hty]
        · by_cases hty : m.mtype ≠ "REPORT"
          · rw [if_pos hty]
          · rw [if_neg hty, if_pos hrid]
      refine ⟨h2, fun reply2 => ?_⟩
      rw [txRound_seqs, txRound_seqs, h2]

/-- Witness for C6: with no reply at all, a concrete round leaves the
pending set and both counters untouched. -/
theorem txRound_spec_witness :
    (txRound 7 2 ({0, 1, 2} : Finset Nat) 0 0 none).2 = ({0, 1, 2}, 0, 0) :=
  ((txRound_spec 7 2 {0, 1, 2} 0 0 none).2.2 (by rintro ⟨m, hm, -, -⟩; cases hm)).1

/-! ## Claim theorems: handshake failure -/

/-- C9: when no matching `SYNC_ACK` arrives within the ack wait,
`send_bytes` returns the structured `success = false`,
`reason = "sync_failed"` result (it does not raise and does not retry),
and the only write made before that return is the SYNC announcement — in
particular no data frame is built or written. -/
theorem send_bytes_sync_failed (windowSize maxRounds runId : Nat)
    (data : List Nat) (mtu : Nat) (script : Nat → Option CtrlMsg)
    (hmtu : 15 ≤ mtu) (hack : ackMatches (script 0) runId = false) :
    send_bytes windowSize maxRounds runId data mtu script =
        some (TxResult.syncFailed runId data.length
            ((data.length + (mtu - 14) - 1) / (mtu - 14)),
          [TxWrite.sync runId mtu ((data.length + (mtu - 14) - 1) / (mtu - 14))
            data.length windowSize]) ∧
      (TxResult.syncFailed runId data.length
          ((data.length + (mtu - 14) - 1) / (mtu - 14))).success = false ∧
      (TxResult.syncFailed runId data.length
          ((data.length + (mtu - 14) - 1) / (mtu - 14))).reason =
        some "sync_failed" ∧
      ∀ bytes : List Nat,
        TxWrite.frame bytes ∉
          [TxWrite.sync runId mtu ((data.length + (mtu - 14) - 1) / (mtu - 14))
            data.length windowSize] := by
  refine ⟨?_, rfl, rfl, ?_⟩
  · simp only [send_bytes]
    rw [if_neg (by omega : ¬(mtu - 14 = 0))]
    rw [if_pos (by simp [hack])]
  · intro bytes
    simp

/-- Witness for C9: scripted silence (`recv_msg` always times out) at a
concrete call. -/
theorem send_bytes_sync_failed_witness :
    send_bytes 12 40 7 [1, 2, 3] 15 (fun _ => none) =
      some (TxResult.syncFailed 7 3 3, [TxWrite.sync 7 15 3 3 12]) :=
  (send_bytes_sync_failed 12 40 7 [1, 2, 3] 15 (fun _ => none)
    (by decide) rfl).1
